import Mathlib

/-!
Shallow embedding of the nextgen repository:
the PredictedProcess class (src/PredictedProcess.ts) and the
PredictedProcessesManager class (src/PredictedProcessesManager.ts).

The run method of PredictedProcess spawns a child process and returns a
promise that is settled by event handlers attached to the child handle
(error, exit, close) and, when a signal is supplied, by one abort listener
added to the signal.  We model one run invocation as a fold of the incoming
events over a state that records the child handle (its registered listeners
and whether kill() has been issued), the promise settlement (a promise
settles at most once; the first resolve/reject wins, later calls are no-ops
while the handler side effects still execute), and whether the abort
listener is active.  The memoize method is modelled as a state transformer
over the signal-identity-keyed cache map.
-/

deriving instance DecidableEq for Except

namespace NextGen

/-- The kinds of listeners the run executor registers on the child handle. -/
inductive ChildListener where
  | error
  | exit
  | close
  deriving DecidableEq, Repr

/-- One child process handle: the listeners currently registered on it and
whether kill() has been issued against it. -/
structure ChildHandle where
  listeners : List ChildListener
  killed : Bool
  deriving DecidableEq, Repr

/-- The values the run promise can be rejected with, one constructor per
reject site in the source. -/
inductive RejectValue where
  /-- reject(error) in the error-event handler. -/
  | spawnErr (msg : String)
  /-- reject(signal) in the non-zero branch of the exit-event handler: the
  rejection value is the kill-signal argument of the event, not the code. -/
  | exitSignal (sig : Option String)
  /-- reject(new Error(...)) in the non-zero branch of the close-event
  handler. -/
  | closeErr (msg : String)
  /-- new Error('AbortSignal triggered') in the abort listener. -/
  | abortTriggered
  /-- new Error('Aborted before execution') thrown by run before spawning. -/
  | abortedBeforeExecution
  /-- new Error('Signal already aborted') thrown by the memoized run. -/
  | signalAlreadyAborted
  deriving DecidableEq, Repr

/-- The message built in the close handler.  The source writes the template
literal with a space between the dollar sign and the brace, so no
interpolation happens and the message is this constant text, independent of
the exit code. -/
def closeMessage (_code : Option Int) : String :=
  "Process exited with code $ \x7bcode\x7d"

/-- The events one run invocation can observe: the child handle events
(error, exit with code and kill-signal, close with code) and the firing of
the supplied abort signal. -/
inductive RunEvent where
  | errorEvent (msg : String)
  | exitEvent (code : Option Int) (sig : Option String)
  | closeEvent (code : Option Int)
  | abortEvent
  deriving DecidableEq, Repr

/-- The state of one run invocation after the promise executor has spawned
the child. -/
structure RunState where
  child : ChildHandle
  /-- none while the promise is pending; the first settlement wins. -/
  settled : Option (Except RejectValue Unit)
  /-- The abort listener is added to the signal, not the child, and the
  cleanup closure never removes it. -/
  hasAbortListener : Bool
  deriving DecidableEq, Repr

/-- The cleanup closure of run: removeAllListeners() and kill() on the
handle stored in the instance field (for a single invocation this is the
handle the invocation spawned). -/
def cleanup (s : RunState) : RunState :=
  { s with child := { listeners := [], killed := true } }

/-- resolve(): a no-op when the promise has already settled. -/
def tryResolve (s : RunState) : RunState :=
  match s.settled with
  | some _ => s
  | none => { s with settled := some (Except.ok ()) }

/-- reject(v): a no-op when the promise has already settled. -/
def tryReject (v : RejectValue) (s : RunState) : RunState :=
  match s.settled with
  | some _ => s
  | none => { s with settled := some (Except.error v) }

/-- Delivery of one event to the handlers of run, exactly as the source
installs them: the error handler only rejects; the exit and close handlers
run cleanup then resolve on code 0 and only reject otherwise; the abort
listener runs cleanup then rejects.  A child event is delivered only when
the corresponding listener is still registered; the abort listener stays
active for the whole invocation. -/
def runStep (s : RunState) (e : RunEvent) : RunState :=
  match e with
  | RunEvent.errorEvent msg =>
      if ChildListener.error ∈ s.child.listeners then
        tryReject (RejectValue.spawnErr msg) s
      else s
  | RunEvent.exitEvent code sig =>
      if ChildListener.exit ∈ s.child.listeners then
        if code = some 0 then tryResolve (cleanup s)
        else tryReject (RejectValue.exitSignal sig) s
      else s
  | RunEvent.closeEvent code =>
      if ChildListener.close ∈ s.child.listeners then
        if code = some 0 then tryResolve (cleanup s)
        else tryReject (RejectValue.closeErr (closeMessage code)) s
      else s
  | RunEvent.abortEvent =>
      if s.hasAbortListener then
        tryReject RejectValue.abortTriggered (cleanup s)
      else s

/-- The state right after the promise executor ran: the child spawned with
the three handlers registered, promise pending, abort listener added iff a
signal was supplied. -/
def initialRunState (hasSignal : Bool) : RunState :=
  { child := { listeners := [ChildListener.error, ChildListener.exit, ChildListener.close]
               killed := false }
    settled := none
    hasAbortListener := hasSignal }

/-- One run invocation body after the pre-abort check: fold the schedule of
incoming events over the executor state. -/
def runExec (hasSignal : Bool) (events : List RunEvent) : RunState :=
  events.foldl runStep (initialRunState hasSignal)

/-- The observable outcome of one run invocation. -/
structure RunOutcome where
  /-- Whether spawn was called. -/
  spawned : Bool
  /-- none when the promise never settled under the given schedule. -/
  result : Option (Except RejectValue Unit)
  /-- The final child handle; none when no process was spawned. -/
  finalChild : Option ChildHandle
  deriving DecidableEq, Repr

/-- run(signal?): signalAborted is none when no signal is passed and some b
when a signal whose aborted flag reads b is passed.  When the flag is true
run throws before the promise executor, so nothing is spawned and no
listener is registered; otherwise the executor spawns and the events
settle the promise. -/
def run (signalAborted : Option Bool) (events : List RunEvent) : RunOutcome :=
  match signalAborted with
  | some true =>
      { spawned := false
        result := some (Except.error RejectValue.abortedBeforeExecution)
        finalChild := none }
  | _ =>
      let s := runExec signalAborted.isSome events
      { spawned := true, result := s.settled, finalChild := some s.child }

/-!
The memoize method replaces run on a copy of the process with a wrapper over
the original instance's cache, a Map keyed by AbortSignal object identity.
We model signal identities as natural numbers and the cache as an
association list with Map.set/Map.delete semantics.  A memoized run call is
a state transformer; settlement of a stored promise is a separate
transition mirroring the catch handler attached at insertion, which deletes
the entry when the promise fails.
-/

/-- AbortSignal object identity (the Map key is the signal object itself). -/
abbrev SigId := Nat

/-- The cache: signal identity to the promise stored for it.  Promises are
identified by the number the invocation log assigned them. -/
abbrev Cache := List (SigId × Nat)

/-- Map.get / Map.has on the cache. -/
def cacheGet (c : Cache) (sig : SigId) : Option Nat :=
  (c.find? (fun e => e.fst = sig)).map (fun e => e.snd)

/-- Map.set on the cache: replace the entry for an existing key in place,
otherwise append. -/
def cacheSet (c : Cache) (sig : SigId) (p : Nat) : Cache :=
  if (c.find? (fun e => e.fst = sig)).isSome then
    c.map (fun e => if e.fst = sig then (sig, p) else e)
  else c ++ [(sig, p)]

/-- Map.delete on the cache. -/
def cacheDelete (c : Cache) (sig : SigId) : Cache :=
  c.filter (fun e => ¬ e.fst = sig)

/-- The state the memoized run reads and writes: the original instance's
cache, the counter producing the next promise identity, and the log of
underlying run invocations started so far (signal, promise). -/
structure MemoState where
  cache : Cache
  nextPromise : Nat
  underlyingRuns : List (SigId × Nat)
  deriving DecidableEq, Repr

/-- What one memoized run call returns. -/
inductive MemoResult where
  /-- The call threw before touching the cache. -/
  | rejected (v : RejectValue)
  /-- The call returned the promise already stored in the cache. -/
  | joined (p : Nat)
  /-- The call started a new underlying run invocation and returned its
  promise. -/
  | started (p : Nat)
  deriving DecidableEq, Repr

/-- The run wrapper installed by memoize: throw when the signal is already
aborted (before touching the cache); return the cached promise when one
exists for this signal identity; otherwise start the underlying run, store
its promise under the signal identity and return it. -/
def memoizedRun (aborted : SigId → Bool) (sig : SigId) (st : MemoState) :
    MemoResult × MemoState :=
  if aborted sig then
    (MemoResult.rejected RejectValue.signalAlreadyAborted, st)
  else
    match cacheGet st.cache sig with
    | some p => (MemoResult.joined p, st)
    | none =>
        let p := st.nextPromise
        (MemoResult.started p,
         { cache := cacheSet st.cache sig p
           nextPromise := p + 1
           underlyingRuns := st.underlyingRuns ++ [(sig, p)] })

/-- Settlement of the promise stored for a signal identity, as observed by
the catch handler memoizedRun attached: on failure the entry for that
signal is deleted from the cache; on success nothing happens. -/
def settleMemo (sig : SigId) (failed : Bool) (st : MemoState) : MemoState :=
  if failed then { st with cache := cacheDelete st.cache sig } else st

/-!
The PredictedProcessesManager class (src/PredictedProcessesManager.ts):
an ordered list of processes with add/remove/get, and runAll whose body in
the source is only a TODO comment.
-/

/-- A PredictedProcess as the manager sees it: the immutable id and
command. -/
structure PredictedProcess where
  id : Int
  command : String
  deriving DecidableEq, Repr

/-- The manager: the private _processes array. -/
structure PredictedProcessesManager where
  _processes : List PredictedProcess
  deriving DecidableEq, Repr

/-- The processes getter returns a copy of the array (a slice); with value
semantics this is the list itself. -/
def processes (m : PredictedProcessesManager) : List PredictedProcess :=
  m._processes

/-- addProcess pushes the process onto the array. -/
def addProcess (m : PredictedProcessesManager) (p : PredictedProcess) :
    PredictedProcessesManager :=
  { _processes := m._processes ++ [p] }

/-- removeProcess keeps exactly the entries whose id differs. -/
def removeProcess (m : PredictedProcessesManager) (i : Int) :
    PredictedProcessesManager :=
  { _processes := m._processes.filter (fun q => ¬ q.id = i) }

/-- getProcess returns the first entry with a matching id, if any. -/
def getProcess (m : PredictedProcessesManager) (i : Int) :
    Option PredictedProcess :=
  (processes m).find? (fun q => q.id = i)

/-- runAll in the source is an async function whose body is only a TODO
comment: it invokes nothing and resolves with undefined regardless of the
registered processes and of the signal. -/
def runAll (_m : PredictedProcessesManager) (_signalAborted : Option Bool) :
    Except RejectValue Unit :=
  Except.ok ()

/-!
The instance-level shared handle field.  run stores the spawned handle in
this._childProcess, a single mutable field of the instance, and the cleanup
closure dereferences that same field at call time.  To examine two
concurrent run invocations on one instance we model the field explicitly:
handles are numbered, spawning an invocation allocates a fresh handle and
overwrites the field, and cleanup records kill()/removeAllListeners()
against whichever handle the field currently holds.
-/

/-- The state shared by all run invocations of one instance: the
_childProcess field and the log of cleanup effects per handle. -/
structure SharedRunState where
  _childProcess : Option Nat
  nextHandle : Nat
  /-- Handles against which kill() has been issued. -/
  killedHandles : List Nat
  /-- Handles against which removeAllListeners() has been issued. -/
  clearedHandles : List Nat
  deriving DecidableEq, Repr

/-- The start of one run invocation's executor: spawn a fresh handle and
store it in the instance field.  Returns the handle this invocation
spawned. -/
def spawnInvocation (s : SharedRunState) : Nat × SharedRunState :=
  (s.nextHandle,
   { s with _childProcess := some s.nextHandle, nextHandle := s.nextHandle + 1 })

/-- The cleanup closure of an invocation: removeAllListeners() and kill() on
the handle the instance field holds at the moment cleanup runs — not
necessarily the handle this invocation spawned. -/
def cleanupInvocation (s : SharedRunState) : SharedRunState :=
  match s._childProcess with
  | none => s
  | some h =>
      { s with clearedHandles := s.clearedHandles ++ [h]
               killedHandles := s.killedHandles ++ [h] }

/-!
Helper lemmas.
-/

/-- reject() is a no-op on an already settled promise. -/
theorem tryReject_of_settled (v : RejectValue) (s : RunState)
    (r : Except RejectValue Unit) (h : s.settled = some r) :
    tryReject v s = s := by
  simp [tryReject, h]

/-- resolve() is a no-op on an already settled promise. -/
theorem tryResolve_of_settled (s : RunState) (r : Except RejectValue Unit)
    (h : s.settled = some r) : tryResolve s = s := by
  simp [tryResolve, h]

/-- reject() settles a pending promise with the error. -/
theorem tryReject_of_pending (v : RejectValue) (s : RunState)
    (h : s.settled = none) :
    tryReject v s = { s with settled := some (Except.error v) } := by
  simp [tryReject, h]

/-- resolve() settles a pending promise with success. -/
theorem tryResolve_of_pending (s : RunState) (h : s.settled = none) :
    tryResolve s = { s with settled := some (Except.ok ()) } := by
  simp [tryResolve, h]

/-- A settled promise stays settled with the same value across any event:
resolve and reject are no-ops after the first settlement. -/
theorem runStep_settled_stable (s : RunState) (e : RunEvent)
    (r : Except RejectValue Unit) (h : s.settled = some r) :
    (runStep s e).settled = some r := by
  have hc : (cleanup s).settled = some r := h
  cases e <;>
    simp only [runStep] <;>
      split <;>
        first
          | exact h
          | (try split) <;>
              simp [tryReject_of_settled _ _ r, tryResolve_of_settled _ r, h, hc,
                    tryReject_of_settled _ (cleanup s) r hc,
                    tryResolve_of_settled (cleanup s) r hc]

/-- Once the promise is settled and the child handle is clean (no listeners,
kill issued), one more event changes neither: child events find no
listener, and the abort listener's cleanup and reject leave a clean,
settled state unchanged. -/
theorem runStep_frozen (r : Except RejectValue Unit) (s : RunState)
    (e : RunEvent) (h1 : s.settled = some r) (h2 : s.child = ⟨[], true⟩) :
    (runStep s e).settled = some r ∧
    (runStep s e).child = (⟨[], true⟩ : ChildHandle) := by
  have hc : (cleanup s).settled = some r := h1
  cases e with
  | errorEvent msg => simp [runStep, h2, h1]
  | exitEvent code sig => simp [runStep, h2, h1]
  | closeEvent code => simp [runStep, h2, h1]
  | abortEvent =>
      simp only [runStep]
      split
      · rw [tryReject_of_settled _ (cleanup s) r hc]
        exact ⟨hc, rfl⟩
      · exact ⟨h1, h2⟩

/-- The frozen state persists across a whole event schedule. -/
theorem foldl_runStep_frozen (r : Except RejectValue Unit)
    (l : List RunEvent) (s : RunState)
    (h1 : s.settled = some r) (h2 : s.child = ⟨[], true⟩) :
    (l.foldl runStep s).settled = some r ∧
    (l.foldl runStep s).child = (⟨[], true⟩ : ChildHandle) := by
  induction l generalizing s with
  | nil => exact ⟨h1, h2⟩
  | cons e es ih =>
      have h := runStep_frozen r s e h1 h2
      exact ih (runStep s e) h.1 h.2

/-- resolve() is reached only through the success branches of the exit and
close handlers, both of which run cleanup first.  So whenever one event
turns a state satisfying resolved-implies-clean into a resolved state, the
resulting child handle is clean. -/
theorem runStep_ok_clean (s : RunState) (e : RunEvent)
    (h : s.settled = some (Except.ok ()) → s.child = ⟨[], true⟩) :
    (runStep s e).settled = some (Except.ok ()) →
    (runStep s e).child = (⟨[], true⟩ : ChildHandle) := by
  rcases hs : s.settled with _ | r
  · -- pending promise: only the cleanup-then-resolve branches can produce
    -- a resolved state, and they make the child clean
    cases e <;>
      simp only [runStep] <;>
        split <;>
          (try split) <;>
            simp [tryReject, tryResolve, cleanup, hs]
  · -- settled promise: the settlement value is stable, so either it was
    -- already a resolution (then the child was clean and stays clean by
    -- the frozen lemma) or the conclusion is vacuous
    intro hok
    have hst := runStep_settled_stable s e r hs
    rw [runStep_settled_stable s e r hs] at hok
    cases hok
    exact (runStep_frozen _ s e hs (h hs)).2

/-- The resolved-implies-clean property holds after any event schedule. -/
theorem foldl_runStep_ok_clean (l : List RunEvent) (s : RunState)
    (h : s.settled = some (Except.ok ()) → s.child = ⟨[], true⟩) :
    (l.foldl runStep s).settled = some (Except.ok ()) →
    (l.foldl runStep s).child = (⟨[], true⟩ : ChildHandle) := by
  induction l generalizing s with
  | nil => exact h
  | cons e es ih => exact ih (runStep s e) (runStep_ok_clean s e h)

/-- After a fresh insert, the cache holds the inserted promise under the
signal identity. -/
theorem cacheGet_cacheSet_self (c : Cache) (sig : SigId) (p : Nat)
    (h : cacheGet c sig = none) : cacheGet (cacheSet c sig p) sig = some p := by
  have hf : c.find? (fun e => decide (e.fst = sig)) = none := by
    cases hfind : c.find? (fun e => decide (e.fst = sig)) with
    | none => rfl
    | some e => rw [cacheGet, hfind] at h; cases h
  rw [cacheSet, cacheGet]
  simp [hf, List.find?_append]

/-- Deleting a signal identity leaves no entry for it. -/
theorem cacheGet_cacheDelete_self (c : Cache) (sig : SigId) :
    cacheGet (cacheDelete c sig) sig = none := by
  rw [cacheGet, cacheDelete]
  have : (c.filter (fun e => ¬ e.fst = sig)).find?
      (fun e => decide (e.fst = sig)) = none := by
    rw [List.find?_eq_none]
    intro x hx
    simp only [List.mem_filter, decide_not] at hx
    simpa using hx.2
  rw [this]
  rfl

/-!
Claim theorems.
-/

/-- C1: the claim says runAll invokes run on every registered process and
rejects when any process's run fails.  The source's runAll body is only a
TODO comment, so it resolves with void unconditionally: here the manager
holds the three processes of the repository's own test (the second of
which fails its run with the spawn error the test injects), yet runAll
still returns success without invoking anything.  This contradicts both
the claim and the repository's test suite. -/
theorem runAll_stub_resolves_despite_failing_member :
    (run none [RunEvent.errorEvent "Process error"]).result =
      some (Except.error (RejectValue.spawnErr "Process error")) ∧
    runAll
      { _processes :=
          [ { id := 1, command := "echo \"Process 1\"" },
            { id := 2, command := "invalid-command" },
            { id := 3, command := "echo \"Process 3\"" } ] } none =
      Except.ok () :=
  ⟨rfl, rfl⟩

/-- C2: the claim says every settling path removes all child listeners and
terminates the handle.  On the non-zero-exit path (exit event with code 1
then close with code 1) and on the spawn-error path, the handlers reject
without running the cleanup closure: the promise settles rejected while
all three child listeners are still registered and kill() was never
issued. -/
theorem run_failure_paths_skip_cleanup :
    run (some false) [RunEvent.exitEvent (some 1) none, RunEvent.closeEvent (some 1)] =
      { spawned := true
        result := some (Except.error (RejectValue.exitSignal none))
        finalChild := some
          ⟨[ChildListener.error, ChildListener.exit, ChildListener.close], false⟩ } ∧
    run none [RunEvent.errorEvent "spawn invalid-command ENOENT"] =
      { spawned := true
        result := some (Except.error (RejectValue.spawnErr "spawn invalid-command ENOENT"))
        finalChild := some
          ⟨[ChildListener.error, ChildListener.exit, ChildListener.close], false⟩ } :=
  ⟨rfl, rfl⟩

/-- C4: the claim says a non-zero exit rejects with an error identifying
the exit status.  When the child exits with code 1 (exit event first, as
the platform emits it, then close), the promise is rejected by the exit
handler with its kill-signal argument — null here — which carries no exit
status; and the close handler's message is a constant string (the broken
template literal), identical for every exit code, so it identifies no
status either. -/
theorem run_nonzero_exit_reject_lacks_status :
    (run (some false)
        [RunEvent.exitEvent (some 1) none, RunEvent.closeEvent (some 1)]).result =
      some (Except.error (RejectValue.exitSignal none)) ∧
    closeMessage (some 1) = closeMessage (some 255) ∧
    closeMessage (some 1) = "Process exited with code $ \x7bcode\x7d" :=
  ⟨rfl, rfl, rfl⟩

/-- C6: when the supplied signal fires abort while the process is running
(the abort event arrives before any terminal child event), run rejects
with the abort-kind error and the cleanup closure has issued kill()
against the child handle and removed its listeners, whatever events follow. -/
theorem run_abort_during_execution_kills_and_rejects (rest : List RunEvent) :
    run (some false) (RunEvent.abortEvent :: rest) =
      { spawned := true
        result := some (Except.error RejectValue.abortTriggered)
        finalChild := some ⟨[], true⟩ } := by
  have h := foldl_runStep_frozen (Except.error RejectValue.abortTriggered) rest
      (runStep (initialRunState true) RunEvent.abortEvent) rfl rfl
  show ({ spawned := true
          result := (List.foldl runStep
            (runStep (initialRunState true) RunEvent.abortEvent) rest).settled
          finalChild := some (List.foldl runStep
            (runStep (initialRunState true) RunEvent.abortEvent) rest).child } : RunOutcome) = _
  rw [h.1, h.2]

/-- C10: whenever a run invocation resolves successfully, the resolution
went through the cleanup-then-resolve branch of the exit or close handler,
so the final child handle has had kill() issued (and its listeners
removed): forced termination is not restricted to the abort path. -/
theorem run_success_issues_kill (sa : Option Bool) (events : List RunEvent)
    (h : (run sa events).result = some (Except.ok ())) :
    (run sa events).finalChild = some (⟨[], true⟩ : ChildHandle) := by
  rcases sa with _ | b
  · have h' : (List.foldl runStep (initialRunState false) events).settled =
        some (Except.ok ()) := h
    have hclean := foldl_runStep_ok_clean events (initialRunState false)
        (fun hok => Option.noConfusion hok) h'
    show some (List.foldl runStep (initialRunState false) events).child = _
    rw [hclean]
  · cases b
    · have h' : (List.foldl runStep (initialRunState true) events).settled =
          some (Except.ok ()) := h
      have hclean := foldl_runStep_ok_clean events (initialRunState true)
          (fun hok => Option.noConfusion hok) h'
      show some (List.foldl runStep (initialRunState true) events).child = _
      rw [hclean]
    · simp [run] at h

/-- Witness for C10: a child exiting with code 0 resolves the run and the
final handle is killed with no listeners left. -/
theorem run_success_issues_kill_witness :
    (run none [RunEvent.exitEvent (some 0) none]).result =
      some (Except.ok ()) ∧
    (run none [RunEvent.exitEvent (some 0) none]).finalChild =
      some (⟨[], true⟩ : ChildHandle) :=
  ⟨rfl, run_success_issues_kill none [RunEvent.exitEvent (some 0) none] rfl⟩

/-- C3 counterexample: two concurrent run invocations on one instance share
the single _childProcess field.  Invocation A spawns handle 0, invocation B
spawns handle 1 and overwrites the field; when A's cleanup closure then
runs it dereferences the field and kills and clears B's handle, while A's
own handle receives neither — refuting the claim that one invocation's
cleanup never operates on the other invocation's handle. -/
theorem concurrent_cleanup_clobbers_other_handle :
    let s0 : SharedRunState :=
      { _childProcess := none, nextHandle := 0
        killedHandles := [], clearedHandles := [] }
    let runA := spawnInvocation s0
    let runB := spawnInvocation runA.snd
    let afterCleanupA := cleanupInvocation runB.snd
    runA.fst ≠ runB.fst ∧
    runB.fst ∈ afterCleanupA.killedHandles ∧
    runB.fst ∈ afterCleanupA.clearedHandles ∧
    runA.fst ∉ afterCleanupA.killedHandles ∧
    runA.fst ∉ afterCleanupA.clearedHandles := by
  decide

/-- C3 amended: each invocation does spawn its own fresh handle, but the
handle is stored in the instance-level shared field _childProcess and the
cleanup closure operates on whatever handle that field holds when it runs;
so once a second concurrent invocation has spawned, the first invocation's
cleanup kills and clears the second invocation's handle and never touches
its own. -/
theorem cleanup_acts_on_shared_field (s : SharedRunState)
    (hK : s.killedHandles = []) (hC : s.clearedHandles = []) :
    let runA := spawnInvocation s
    let runB := spawnInvocation runA.snd
    let afterCleanupA := cleanupInvocation runB.snd
    runA.fst ≠ runB.fst ∧
    afterCleanupA.killedHandles = [runB.fst] ∧
    afterCleanupA.clearedHandles = [runB.fst] ∧
    runA.fst ∉ afterCleanupA.killedHandles ∧
    runA.fst ∉ afterCleanupA.clearedHandles := by
  simp only [spawnInvocation, cleanupInvocation, hK, hC]
  refine ⟨by omega, by simp, by simp, ?_, ?_⟩ <;> simp

/-- Witness for C3's amended theorem at a concrete shared state. -/
theorem cleanup_acts_on_shared_field_witness :
    (⟨none, 5, [], []⟩ : SharedRunState).killedHandles = [] ∧
    (⟨none, 5, [], []⟩ : SharedRunState).clearedHandles = [] ∧
    (let runA := spawnInvocation (⟨none, 5, [], []⟩ : SharedRunState)
     let runB := spawnInvocation runA.snd
     let afterCleanupA := cleanupInvocation runB.snd
     runA.fst ≠ runB.fst ∧
     afterCleanupA.killedHandles = [runB.fst] ∧
     afterCleanupA.clearedHandles = [runB.fst] ∧
     runA.fst ∉ afterCleanupA.killedHandles ∧
     runA.fst ∉ afterCleanupA.clearedHandles) :=
  ⟨rfl, rfl, cleanup_acts_on_shared_field ⟨none, 5, [], []⟩ rfl rfl⟩

/-- C5: when the signal's aborted flag is already true at call time, run
throws before the promise executor, so nothing is spawned, no handle
exists and no listener is registered, whatever events would have arrived;
and the memoized run throws before touching the cache, leaving the whole
memo state (cache, promise counter, invocation log) unchanged. -/
theorem aborted_signal_rejects_immediately_no_spawn_no_cache
    (aborted : SigId → Bool) (sig : SigId) (st : MemoState)
    (events : List RunEvent) (h : aborted sig = true) :
    run (some true) events =
      { spawned := false
        result := some (Except.error RejectValue.abortedBeforeExecution)
        finalChild := none } ∧
    memoizedRun aborted sig st =
      (MemoResult.rejected RejectValue.signalAlreadyAborted, st) := by
  refine ⟨rfl, ?_⟩
  simp [memoizedRun, h]

/-- Witness for C5 at a concrete always-aborted signal and memo state. -/
theorem aborted_signal_rejects_immediately_witness :
    (fun _ => true) 0 = true ∧
    (run (some true) [RunEvent.exitEvent (some 0) none] =
      { spawned := false
        result := some (Except.error RejectValue.abortedBeforeExecution)
        finalChild := none } ∧
     memoizedRun (fun _ => true) 0 ⟨[], 0, []⟩ =
      (MemoResult.rejected RejectValue.signalAlreadyAborted, ⟨[], 0, []⟩)) :=
  ⟨rfl, aborted_signal_rejects_immediately_no_spawn_no_cache
    (fun _ => true) 0 ⟨[], 0, []⟩ [RunEvent.exitEvent (some 0) none] rfl⟩

/-- C7: a memoized run call whose signal identity already has a cache entry
returns that entry's promise and changes nothing — in particular it starts
no new underlying invocation; and starting from a state with no entry, the
first call starts exactly one underlying invocation and stores its promise,
after which a second call with the same signal identity joins that promise
and leaves the state unchanged, so one underlying invocation serves both
callers. -/
theorem memoizedRun_joins_cache_and_dedupes
    (aborted : SigId → Bool) (sig : SigId) (st : MemoState) (p : Nat)
    (h : aborted sig = false) :
    (cacheGet st.cache sig = some p →
        memoizedRun aborted sig st = (MemoResult.joined p, st)) ∧
    (cacheGet st.cache sig = none →
        (memoizedRun aborted sig st).fst = MemoResult.started st.nextPromise ∧
        (memoizedRun aborted sig st).snd.underlyingRuns =
            st.underlyingRuns ++ [(sig, st.nextPromise)] ∧
        memoizedRun aborted sig (memoizedRun aborted sig st).snd =
            (MemoResult.joined st.nextPromise,
             (memoizedRun aborted sig st).snd)) := by
  constructor
  · intro hp
    simp [memoizedRun, h, hp]
  · intro hn
    have hset : cacheGet (cacheSet st.cache sig st.nextPromise) sig =
        some st.nextPromise := cacheGet_cacheSet_self _ _ _ hn
    refine ⟨?_, ?_, ?_⟩ <;> simp [memoizedRun, h, hn, hset]

/-- Witness for C7: a concrete state with no entry for the signal; the
first call spawns the one underlying invocation and the second joins it. -/
theorem memoizedRun_joins_cache_and_dedupes_witness :
    (fun _ => false) 7 = false ∧
    ((cacheGet (⟨[], 0, []⟩ : MemoState).cache 7 = some 3 →
        memoizedRun (fun _ => false) 7 ⟨[], 0, []⟩ =
          (MemoResult.joined 3, ⟨[], 0, []⟩)) ∧
     (cacheGet (⟨[], 0, []⟩ : MemoState).cache 7 = none →
        (memoizedRun (fun _ => false) 7 ⟨[], 0, []⟩).fst =
            MemoResult.started (⟨[], 0, []⟩ : MemoState).nextPromise ∧
        (memoizedRun (fun _ => false) 7 ⟨[], 0, []⟩).snd.underlyingRuns =
            (⟨[], 0, []⟩ : MemoState).underlyingRuns ++
              [(7, (⟨[], 0, []⟩ : MemoState).nextPromise)] ∧
        memoizedRun (fun _ => false) 7
            (memoizedRun (fun _ => false) 7 ⟨[], 0, []⟩).snd =
          (MemoResult.joined (⟨[], 0, []⟩ : MemoState).nextPromise,
           (memoizedRun (fun _ => false) 7 ⟨[], 0, []⟩).snd))) :=
  ⟨rfl, memoizedRun_joins_cache_and_dedupes (fun _ => false) 7 ⟨[], 0, []⟩ 3 rfl⟩

/-- C8: when the stored outcome settles with failure, the catch handler
evicts the entry for that signal identity, so the next memoized call with
the same identity finds no entry and starts a fresh underlying invocation;
a successful settlement changes nothing, so the entry stays in the cache
and a later call joins it without a new invocation. -/
theorem memoCache_evicts_failures_keeps_successes
    (aborted : SigId → Bool) (sig : SigId) (st : MemoState) (p : Nat)
    (h : aborted sig = false) :
    (cacheGet (settleMemo sig true st).cache sig = none ∧
     (memoizedRun aborted sig (settleMemo sig true st)).fst =
        MemoResult.started st.nextPromise ∧
     (memoizedRun aborted sig (settleMemo sig true st)).snd.underlyingRuns =
        st.underlyingRuns ++ [(sig, st.nextPromise)]) ∧
    (settleMemo sig false st = st ∧
     (cacheGet st.cache sig = some p →
        memoizedRun aborted sig st = (MemoResult.joined p, st))) := by
  have hdel : cacheGet (cacheDelete st.cache sig) sig = none :=
    cacheGet_cacheDelete_self _ _
  refine ⟨⟨?_, ?_, ?_⟩, ?_, ?_⟩
  · simpa [settleMemo] using hdel
  · simp [memoizedRun, h, settleMemo, hdel]
  · simp [memoizedRun, h, settleMemo, hdel]
  · simp [settleMemo]
  · intro hp
    simp [memoizedRun, h, hp]

/-- Witness for C8 at a concrete state holding one cached promise for the
signal: failure settlement evicts it and the next call re-runs; success
settlement keeps it and the next call joins it. -/
theorem memoCache_evicts_failures_witness :
    (fun _ => false) 2 = false ∧
    ((cacheGet (settleMemo 2 true ⟨[(2, 0)], 1, [(2, 0)]⟩).cache 2 = none ∧
      (memoizedRun (fun _ => false) 2
          (settleMemo 2 true ⟨[(2, 0)], 1, [(2, 0)]⟩)).fst =
        MemoResult.started (⟨[(2, 0)], 1, [(2, 0)]⟩ : MemoState).nextPromise ∧
      (memoizedRun (fun _ => false) 2
          (settleMemo 2 true ⟨[(2, 0)], 1, [(2, 0)]⟩)).snd.underlyingRuns =
        (⟨[(2, 0)], 1, [(2, 0)]⟩ : MemoState).underlyingRuns ++
          [(2, (⟨[(2, 0)], 1, [(2, 0)]⟩ : MemoState).nextPromise)]) ∧
     (settleMemo 2 false ⟨[(2, 0)], 1, [(2, 0)]⟩ =
        (⟨[(2, 0)], 1, [(2, 0)]⟩ : MemoState) ∧
      (cacheGet (⟨[(2, 0)], 1, [(2, 0)]⟩ : MemoState).cache 2 = some 0 →
        memoizedRun (fun _ => false) 2 ⟨[(2, 0)], 1, [(2, 0)]⟩ =
          (MemoResult.joined 0, ⟨[(2, 0)], 1, [(2, 0)]⟩)))) :=
  ⟨rfl, memoCache_evicts_failures_keeps_successes
    (fun _ => false) 2 ⟨[(2, 0)], 1, [(2, 0)]⟩ 0 rfl⟩

/-- C9: adding a process whose id is not yet registered and then retrieving
by its id returns that same process; and after removing an id, retrieval
of that id returns none (getProcess is total, it cannot throw). -/
theorem manager_add_get_remove_roundtrip
    (m m' : PredictedProcessesManager) (p : PredictedProcess) (i : Int)
    (h : ∀ q ∈ processes m, ¬ q.id = p.id) :
    getProcess (addProcess m p) p.id = some p ∧
    getProcess (removeProcess m' i) i = none := by
  constructor
  · rw [getProcess, processes, addProcess, List.find?_append]
    have h1 : m._processes.find? (fun q => decide (q.id = p.id)) = none := by
      rw [List.find?_eq_none]
      intro x hx
      simpa using h x hx
    rw [h1]
    simp
  · rw [getProcess, processes, removeProcess, List.find?_eq_none]
    intro x hx
    simp only [List.mem_filter] at hx
    simpa using hx.2

/-- Witness for C9 at concrete managers and a concrete process. -/
theorem manager_add_get_remove_roundtrip_witness :
    (∀ q ∈ processes ⟨[⟨2, "ls"⟩]⟩, ¬ q.id = (⟨1, "echo hi"⟩ : PredictedProcess).id) ∧
    (getProcess (addProcess ⟨[⟨2, "ls"⟩]⟩ ⟨1, "echo hi"⟩)
        (⟨1, "echo hi"⟩ : PredictedProcess).id = some ⟨1, "echo hi"⟩ ∧
     getProcess (removeProcess ⟨[⟨1, "a"⟩, ⟨1, "b"⟩]⟩ 1) 1 = none) :=
  ⟨by decide, manager_add_get_remove_roundtrip
    ⟨[⟨2, "ls"⟩]⟩ ⟨[⟨1, "a"⟩, ⟨1, "b"⟩]⟩ ⟨1, "echo hi"⟩ 1 (by decide)⟩

end NextGen
